import Mathlib

/-!
Shallow embedding of `src/streamlit_app.py` (sample-selection tool):
the sample-selector session state, the column-letter conversion, the
matching loop over the fetched sheet, the status/date range writes, the
row-length normalization before export, and the export event handler
with its guards.  Remote effects (fetch, range updates) are reified as
data so that theorems can speak about which calls the pipeline issues.
-/

namespace Amostras

/-- Configuration constants of the script (`SHEET_NAME`, `STATUS_COL`,
`DATE_COL`, `STATUS_VAL`). -/
def SHEET_NAME : String := "Geral"

def STATUS_COL : String := "AF"

def DATE_COL : String := "AG"

def STATUS_VAL : String := "Analisando Amostra"

/-- Python's `str.strip()`: remove whitespace from both ends of the string. -/
def pyStrip (s : String) : String :=
  ⟨List.rdropWhile Char.isWhitespace (s.data.dropWhile Char.isWhitespace)⟩

/-- Embedding of `_col_to_index`: fold `idx = idx * 26 + (ord(c.upper()) - 64)`
over the characters, then subtract 1. -/
def _col_to_index (col : String) : Int :=
  (col.data.foldl (fun idx c => idx * 26 + ((c.toUpper.toNat : Int) - 64)) 0) - 1

/-- One range-scoped column write as sent to the Sheets API: the range
`sheet!colstartLine:colendLine` together with the `values` payload
(a list of rows, each a list of cells). -/
structure RangeWrite where
  sheet : String
  col : String
  startLine : Nat
  endLine : Nat
  values : List (List String)
deriving DecidableEq, Repr

/-- The set of 1-based line numbers addressed by a range write:
every line from `startLine` to `endLine` inclusive. -/
def RangeWrite.addresses (rw : RangeWrite) (n : Nat) : Prop :=
  rw.startLine ≤ n ∧ n ≤ rw.endLine

instance (rw : RangeWrite) (n : Nat) : Decidable (rw.addresses n) :=
  inferInstanceAs (Decidable (_ ∧ _))

/-- Embedding of `update_status`: from the 1-based line numbers `rows_idx`
build the status-column write and the date-column write.  Both ranges run
from `rows_idx[0]` to `rows_idx[-1]`; each payload is `len(rows_idx)`
single-cell rows.  Python raises `IndexError` on an empty list, modelled
as `none`. -/
def update_status (rows_idx : List Nat) (today : String) : Option (RangeWrite × RangeWrite) :=
  match rows_idx with
  | [] => none
  | first :: rest =>
    let lastIdx := (first :: rest).getLast (List.cons_ne_nil _ _)
    let body_status := List.replicate (first :: rest).length [STATUS_VAL]
    let body_date := List.replicate (first :: rest).length [today]
    some ({ sheet := SHEET_NAME, col := STATUS_COL, startLine := first,
            endLine := lastIdx, values := body_status },
          { sheet := SHEET_NAME, col := DATE_COL, startLine := first,
            endLine := lastIdx, values := body_date })

/-- Identifier-cell text of a row: `str(row[g_idx]).strip() if g_idx < len(row) else ""`. -/
def sampleText (row : List String) (g_idx : Nat) : String :=
  if h : g_idx < row.length then pyStrip (row.get ⟨g_idx, h⟩) else ""

/-- Embedding of the matching loop `for i, row in enumerate(data, start=2)`:
the (line number, row) pairs whose identifier cell is in the scanned set. -/
def matchedPairs (data : List (List String)) (g_idx : Nat) (samples_set : List String) :
    List (Nat × List String) :=
  (data.enumFrom 2).filter (fun p => decide (sampleText p.2 g_idx ∈ samples_set))

/-- The `selected_rows` and `lines_idx` accumulated by the matching loop. -/
def matchRows (data : List (List String)) (g_idx : Nat) (samples_set : List String) :
    List (List String) × List Nat :=
  ((matchedPairs data g_idx samples_set).map Prod.snd,
   (matchedPairs data g_idx samples_set).map Prod.fst)

/-- Right-pad one selected row with empty strings up to the header length:
`r + [""] * (len(header) - len(r))`. -/
def padRow (header row : List String) : List String :=
  row ++ List.replicate (header.length - row.length) ""

/-- Embedding of `norm_rows`: pad every selected row. -/
def norm_rows (header : List String) (selected_rows : List (List String)) :
    List (List String) :=
  selected_rows.map (padRow header)

/-- The per-session state: the scanned sample list and the text-input buffer
(`st.session_state["samples"]`, `st.session_state["current_input"]`). -/
structure SessionState where
  samples : List String
  current_input : String
deriving DecidableEq, Repr

/-- Session state right after initialization: empty list, empty buffer. -/
def initialState : SessionState :=
  { samples := [], current_input := "" }

/-- Embedding of `_add_sample`: trim the input buffer; append when non-empty
and not already present; always clear the buffer. -/
def _add_sample (st : SessionState) : SessionState :=
  let code := pyStrip st.current_input
  let samples := if code ≠ "" ∧ code ∉ st.samples then st.samples ++ [code] else st.samples
  { samples := samples, current_input := "" }

/-- A scan event: the text input receives `input` and its change callback
`_add_sample` fires. -/
def scanEvent (st : SessionState) (input : String) : SessionState :=
  _add_sample { st with current_input := input }

/-- The clear-button handler: `st.session_state["samples"].clear()`. -/
def clearEvent (st : SessionState) : SessionState :=
  { st with samples := [] }

/-- Outcome reported to the user by one export attempt. -/
inductive ExportOutcome where
  /-- `st.error` for an empty sample list (`elif gerar:` branch). -/
  | emptyListError : ExportOutcome
  /-- `st.error` when the fetched sheet has no rows. -/
  | emptySheetError : ExportOutcome
  /-- `st.warning` when no sample matches (`if not selected_rows:`). -/
  | noMatchWarning : ExportOutcome
  /-- Successful export: the sheet written into the Excel artifact
  (header row followed by the normalized selected rows) and the
  reported count. -/
  | success (artifact : List (List String)) (count : Nat) : ExportOutcome
deriving DecidableEq, Repr

/-- One remote call issued against the Sheets API. -/
inductive RemoteCall where
  /-- `fetch_sheet()` -/
  | fetch : RemoteCall
  /-- one `values().update` carrying a `RangeWrite` -/
  | update (rw : RangeWrite) : RemoteCall
deriving DecidableEq, Repr

/-- Embedding of the export trigger handler (`if gerar and ...` /
`elif gerar:`): given the session state, the rows the fetch would return,
and today's date string, produce the final state, the reported outcome and
the list of remote calls issued, in order.  `none` models a Python
exception (unreachable, see `update_status_of_ne_nil`). -/
def onExport (st : SessionState) (sheet_rows : List (List String)) (today : String) :
    Option (SessionState × ExportOutcome × List RemoteCall) :=
  if st.samples = [] then
    some (st, .emptyListError, [])
  else
    match sheet_rows with
    | [] => some (st, .emptySheetError, [.fetch])
    | header :: data =>
      let g_idx := (_col_to_index "G").toNat
      let samples_set := st.samples.map pyStrip
      let selected_rows := (matchRows data g_idx samples_set).1
      let lines_idx := (matchRows data g_idx samples_set).2
      if selected_rows = [] then
        some (st, .noMatchWarning, [.fetch])
      else
        match update_status lines_idx today with
        | none => none
        | some (s, d) =>
          some (st, .success (header :: norm_rows header selected_rows) selected_rows.length,
                [.fetch, .update s, .update d])

/-- Invariant of the scanned-sample list: no duplicates, no empty string,
every element is its own trimmed form. -/
def SampleInv (samples : List String) : Prop :=
  samples.Nodup ∧ ∀ s ∈ samples, s ≠ "" ∧ pyStrip s = s

/-! Helper lemmas -/

/-- Dropping leading whitespace after a both-ends strip is a no-op:
the list obtained by `dropWhile` then `rdropWhile` has no leading
whitespace left. -/
lemma dropWhile_rdropWhile_dropWhile (p : Char → Bool) (l : List Char) :
    List.dropWhile p (List.rdropWhile p (List.dropWhile p l)) =
      List.rdropWhile p (List.dropWhile p l) := by
  cases h : List.rdropWhile p (List.dropWhile p l) with
  | nil => simp
  | cons a t =>
    have hpre : List.rdropWhile p (List.dropWhile p l) <+: List.dropWhile p l :=
      List.rdropWhile_prefix p _
    rw [h] at hpre
    obtain ⟨rest, hrest⟩ := hpre
    have hd : List.dropWhile p l = a :: (t ++ rest) := by
      rw [← hrest]; simp
    have hne : List.dropWhile p l ≠ [] := by rw [hd]; simp
    have hna : p a = false := by
      have h3 : (List.dropWhile p l).head hne = a := by
        revert hne; rw [hd]; intro hne; rfl
      have h2 := List.head_dropWhile_not p l hne
      rwa [h3] at h2
    rw [List.dropWhile_cons_of_neg (by simp [hna])]

/-- Python's `strip` is idempotent. -/
lemma pyStrip_idem (s : String) : pyStrip (pyStrip s) = pyStrip s := by
  show (⟨_⟩ : String) = ⟨_⟩
  congr 1
  rw [show (pyStrip s).data =
        List.rdropWhile Char.isWhitespace (s.data.dropWhile Char.isWhitespace) from rfl]
  rw [dropWhile_rdropWhile_dropWhile, List.rdropWhile_idempotent]

/-- An uppercase basic-latin character is fixed by `Char.toUpper`. -/
lemma toUpper_eq_self_of_upper {c : Char} (h : c.toNat < 97) : c.toUpper = c := by
  simp only [Char.toUpper]
  rw [if_neg]
  rintro ⟨h1, _⟩
  omega

/-- Every non-empty position list produces the pair of range writes. -/
lemma update_status_of_ne_nil (rows_idx : List Nat) (today : String) (h : rows_idx ≠ []) :
    ∃ s d, update_status rows_idx today = some (s, d) := by
  cases rows_idx with
  | nil => exact absurd rfl h
  | cons first rest => exact ⟨_, _, rfl⟩

/-- The export handler never changes the session state. -/
lemma onExport_state_eq (st : SessionState) (sheet_rows : List (List String)) (today : String)
    (res : SessionState × ExportOutcome × List RemoteCall)
    (h : onExport st sheet_rows today = some res) : res.1 = st := by
  unfold onExport at h
  split at h
  · exact (Option.some_inj.mp h) ▸ rfl
  · split at h
    · exact (Option.some_inj.mp h) ▸ rfl
    · dsimp only at h
      split at h
      · exact (Option.some_inj.mp h) ▸ rfl
      · split at h
        · exact absurd h (by simp)
        · exact (Option.some_inj.mp h) ▸ rfl

/-- The head of a `≤`-sorted list is a lower bound for its members. -/
lemma sorted_head_le {a : Nat} {t : List Nat} (hs : (a :: t).Sorted (· ≤ ·)) :
    ∀ m ∈ a :: t, a ≤ m := by
  intro m hm
  rcases List.mem_cons.mp hm with rfl | hm'
  · exact le_refl m
  · exact (List.sorted_cons.mp hs).1 m hm'

/-- The last element of a `≤`-sorted list is an upper bound for its members. -/
lemma sorted_le_getLast {l : List Nat} (hs : l.Sorted (· ≤ ·)) (hne : l ≠ []) :
    ∀ m ∈ l, m ≤ l.getLast hne := by
  induction l with
  | nil => simp
  | cons a t ih =>
    intro m hm
    rcases List.sorted_cons.mp hs with ⟨ha, ht⟩
    cases t with
    | nil =>
      rcases List.mem_cons.mp hm with rfl | hm'
      · exact le_refl _
      · simp at hm'
    | cons b t' =>
      rw [List.getLast_cons (List.cons_ne_nil b t')]
      rcases List.mem_cons.mp hm with rfl | hm'
      · exact le_trans (ha b (List.mem_cons_self b t'))
          (ih ht (List.cons_ne_nil b t') b (List.mem_cons_self b t'))
      · exact ih ht (List.cons_ne_nil b t') m hm'

/-! Claim theorems -/

/-- C2: `_col_to_index` reads the letters as a base-26 numeral with digits
`'A' = 1 .. 'Z' = 26` and returns a 0-based index: `index("A") = 0`,
`index("Z") = 25`, `index("AA") = 26`, `index("AB") = 27`, and in general
every single-letter column maps to `ord(c) - 65` and every double-letter
column to `26 * (ord(c₁) - 64) + (ord(c₂) - 64) - 1`, the spreadsheet
column numbering. -/
theorem col_to_index_base26 :
    _col_to_index "A" = 0 ∧ _col_to_index "Z" = 25 ∧
    _col_to_index "AA" = 26 ∧ _col_to_index "AB" = 27 ∧
    (∀ c : Char, 65 ≤ c.toNat → c.toNat ≤ 90 →
      _col_to_index (String.mk [c]) = (c.toNat : Int) - 65) ∧
    (∀ c₁ c₂ : Char, 65 ≤ c₁.toNat → c₁.toNat ≤ 90 → 65 ≤ c₂.toNat → c₂.toNat ≤ 90 →
      _col_to_index (String.mk [c₁, c₂]) =
        26 * ((c₁.toNat : Int) - 64) + ((c₂.toNat : Int) - 64) - 1) := by
  refine ⟨by decide, by decide, by decide, by decide, ?_, ?_⟩
  · intro c h1 h2
    have hu : c.toUpper = c := toUpper_eq_self_of_upper (by omega)
    simp only [_col_to_index, List.foldl, hu]
    omega
  · intro c₁ c₂ h1 h2 h3 h4
    have hu1 : c₁.toUpper = c₁ := toUpper_eq_self_of_upper (by omega)
    have hu2 : c₂.toUpper = c₂ := toUpper_eq_self_of_upper (by omega)
    simp only [_col_to_index, List.foldl, hu1, hu2]
    omega

/-- Witness for C2 at the concrete double letter "AB". -/
theorem col_to_index_base26_witness : _col_to_index (String.mk ['A', 'B']) = 27 := by
  have h := col_to_index_base26.2.2.2.2.2 'A' 'B' (by decide) (by decide) (by decide) (by decide)
  rw [h]; decide

/-- C6: before export every selected row shorter than the header is
right-padded with empty strings to exactly the header length, padding a
row already at header length is a no-op (and padding is idempotent), and
a successful export's sheet is the header row followed by the matched
rows in this normalized form. -/
theorem padding_normalizes_rows (header : List String) :
    (∀ r : List String, r.length ≤ header.length →
      (padRow header r).length = header.length) ∧
    (∀ r : List String, r.length = header.length → padRow header r = r) ∧
    (∀ r : List String, padRow header (padRow header r) = padRow header r) ∧
    (∀ st data today st' art cnt calls,
      onExport st (header :: data) today =
        some (st', ExportOutcome.success art cnt, calls) →
      art = header ::
        norm_rows header
          (matchRows data ((_col_to_index "G").toNat) (st.samples.map pyStrip)).1) := by
  refine ⟨?_, ?_, ?_, ?_⟩
  · intro r h
    simp only [padRow, List.length_append, List.length_replicate]
    omega
  · intro r h
    simp [padRow, h]
  · intro r
    simp only [padRow, List.length_append, List.length_replicate]
    rw [show header.length - (r.length + (header.length - r.length)) = 0 by omega]
    simp
  · intro st data today st' art cnt calls h
    unfold onExport at h
    split at h
    · simp at h
    · dsimp only at h
      split at h
      · simp at h
      · split at h
        · simp at h
        · simp only [Option.some_inj, Prod.mk.injEq, ExportOutcome.success.injEq] at h
          exact h.2.1.1.symm

/-- Witness for C6: padding a short row reaches header length, padding a
full-length row is a no-op. -/
theorem padding_normalizes_rows_witness :
    (padRow ["a", "b", "c"] ["x"]).length = 3 ∧
    padRow ["a", "b", "c"] ["x", "y", "z"] = ["x", "y", "z"] :=
  ⟨(padding_normalizes_rows ["a", "b", "c"]).1 ["x"] (by decide),
   (padding_normalizes_rows ["a", "b", "c"]).2.1 ["x", "y", "z"] (by decide)⟩

/-- C7: the add operation trims its input, is a no-op on the list when the
trimmed code is empty or already present (case-sensitive), otherwise
appends the trimmed code at the end; adding the same code twice leaves
the length unchanged after the second add. -/
theorem add_sample_spec (st : SessionState) (input : String) :
    ((pyStrip input = "" ∨ pyStrip input ∈ st.samples) →
      (scanEvent st input).samples = st.samples) ∧
    (pyStrip input ≠ "" → pyStrip input ∉ st.samples →
      (scanEvent st input).samples = st.samples ++ [pyStrip input]) ∧
    (scanEvent (scanEvent st input) input).samples.length =
      (scanEvent st input).samples.length := by
  refine ⟨?_, ?_, ?_⟩
  · intro h
    simp only [scanEvent, _add_sample]
    rw [if_neg]
    rcases h with h | h
    · rintro ⟨h1, _⟩; exact h1 h
    · rintro ⟨_, h2⟩; exact h2 h
  · intro h1 h2
    simp only [scanEvent, _add_sample]
    rw [if_pos ⟨h1, h2⟩]
  · by_cases he : pyStrip input = ""
    · simp [scanEvent, _add_sample, he]
    · by_cases hm : pyStrip input ∈ st.samples
      · simp [scanEvent, _add_sample, he, hm]
      · set st1 := scanEvent st input with hst1
        have h1 : st1.samples = st.samples ++ [pyStrip input] := by
          rw [hst1]; simp only [scanEvent, _add_sample]; rw [if_pos ⟨he, hm⟩]
        show (scanEvent st1 input).samples.length = st1.samples.length
        simp only [scanEvent, _add_sample]
        rw [if_neg]
        rintro ⟨_, habs⟩
        exact habs (by rw [h1]; simp)

/-- Witness for C7: scanning " S1 " into an empty session appends "S1";
scanning it again does not change the length. -/
theorem add_sample_spec_witness :
    (scanEvent initialState " S1 ").samples = [] ++ [pyStrip " S1 "] ∧
    (scanEvent (scanEvent initialState " S1 ") " S1 ").samples.length =
      (scanEvent initialState " S1 ").samples.length :=
  ⟨(add_sample_spec initialState " S1 ").2.1 (by decide) (by decide),
   (add_sample_spec initialState " S1 ").2.2⟩

/-- C8: triggering export with an empty scanned list reports the
empty-list error, issues no remote calls at all (not even the fetch), and
leaves the session state unchanged. -/
theorem empty_selection_guard (st : SessionState) (sheet_rows : List (List String))
    (today : String) (h : st.samples = []) :
    onExport st sheet_rows today = some (st, ExportOutcome.emptyListError, []) := by
  simp [onExport, h]

/-- Witness for C8 at the initial session state. -/
theorem empty_selection_guard_witness :
    onExport initialState [["ID"]] "01/01/2025" =
      some (initialState, ExportOutcome.emptyListError, []) :=
  empty_selection_guard initialState [["ID"]] "01/01/2025" rfl

/-- C1: for every non-empty sorted position list both column writes go to
the single range whose endpoints are the first and last element, these
endpoints are the minimum and the maximum of the list (they belong to the
list and bound every member), and every line between them — member of the
list or not — is addressed by both writes. -/
theorem status_writer_full_span (rows_idx : List Nat) (today : String)
    (hne : rows_idx ≠ []) (hsorted : rows_idx.Sorted (· ≤ ·)) :
    ∃ s d, update_status rows_idx today = some (s, d) ∧
      s.col = STATUS_COL ∧ d.col = DATE_COL ∧
      s.startLine = rows_idx.head hne ∧ d.startLine = rows_idx.head hne ∧
      s.endLine = rows_idx.getLast hne ∧ d.endLine = rows_idx.getLast hne ∧
      s.startLine ∈ rows_idx ∧ s.endLine ∈ rows_idx ∧
      (∀ m ∈ rows_idx, s.startLine ≤ m ∧ m ≤ s.endLine) ∧
      (∀ n, s.startLine ≤ n → n ≤ s.endLine → s.addresses n ∧ d.addresses n) := by
  cases rows_idx with
  | nil => exact absurd rfl hne
  | cons first rest =>
    refine ⟨_, _, rfl, rfl, rfl, rfl, rfl, rfl, rfl,
      List.mem_cons_self first rest, List.getLast_mem _, ?_, ?_⟩
    · intro m hm
      exact ⟨sorted_head_le hsorted m hm, sorted_le_getLast hsorted hne m hm⟩
    · intro n h1 h2
      exact ⟨⟨h1, h2⟩, h1, h2⟩

/-- Witness for C1 at positions [3, 7]: the range runs from line 3 to
line 7 and line 5, which is not a matched position, is addressed too. -/
theorem status_writer_full_span_witness :
    ∃ s d, update_status [3, 7] "01/01/2025" = some (s, d) ∧
      s.startLine = 3 ∧ s.endLine = 7 ∧ s.addresses 5 ∧ d.addresses 5 := by
  obtain ⟨s, d, heq, _, _, h3, _, h7, _, _, _, _, haddr⟩ :=
    status_writer_full_span [3, 7] "01/01/2025" (by decide) (by decide)
  have hs3 : s.startLine = 3 := by rw [h3]; decide
  have hs7 : s.endLine = 7 := by rw [h7]; decide
  have h5 := haddr 5 (by rw [hs3]; decide) (by rw [hs7]; decide)
  exact ⟨s, d, heq, hs3, hs7, h5.1, h5.2⟩

/-- C9: each of the two range writes carries exactly one single-cell row
per matched position — `len(rows_idx)` copies of the status literal,
respectively of today's date — not one row per line of the addressed
min-max span. -/
theorem payload_one_row_per_position (rows_idx : List Nat) (today : String)
    (hne : rows_idx ≠ []) :
    ∃ s d, update_status rows_idx today = some (s, d) ∧
      s.values = List.replicate rows_idx.length [STATUS_VAL] ∧
      d.values = List.replicate rows_idx.length [today] ∧
      s.values.length = rows_idx.length ∧ d.values.length = rows_idx.length ∧
      (∀ v ∈ s.values, v.length = 1) ∧ (∀ v ∈ d.values, v.length = 1) ∧
      s.startLine = rows_idx.head hne ∧ s.endLine = rows_idx.getLast hne := by
  cases rows_idx with
  | nil => exact absurd rfl hne
  | cons first rest =>
    refine ⟨_, _, rfl, rfl, rfl, by simp, by simp, ?_, ?_, rfl, rfl⟩
    · intro v hv
      rw [List.eq_of_mem_replicate hv]
      rfl
    · intro v hv
      rw [List.eq_of_mem_replicate hv]
      rfl

/-- Witness for C9 at the non-contiguous positions [3, 7]: each payload
has 2 rows while the addressed span has 5 lines. -/
theorem payload_one_row_per_position_witness :
    ∃ s d, update_status [3, 7] "01/01/2025" = some (s, d) ∧
      s.values.length = 2 ∧ d.values.length = 2 ∧ s.endLine + 1 - s.startLine = 5 := by
  obtain ⟨s, d, heq, _, _, hsl, hdl, _, _, hstart, hend⟩ :=
    payload_one_row_per_position [3, 7] "01/01/2025" (by decide)
  refine ⟨s, d, heq, by rw [hsl]; decide, by rw [hdl]; decide, by rw [hend, hstart]; decide⟩

/-- C3: when the trimmed scanned codes are disjoint from every data row's
trimmed identifier-column value, matching produces an empty result, the
pipeline reports the no-match warning, and the only remote call issued is
the fetch — no range write happens and no artifact is produced. -/
theorem no_match_short_circuit (st : SessionState) (header : List String)
    (data : List (List String)) (today : String) (hne : st.samples ≠ [])
    (hdisj : ∀ row ∈ data,
      sampleText row ((_col_to_index "G").toNat) ∉ st.samples.map pyStrip) :
    matchRows data ((_col_to_index "G").toNat) (st.samples.map pyStrip) = ([], []) ∧
    onExport st (header :: data) today =
      some (st, ExportOutcome.noMatchWarning, [RemoteCall.fetch]) := by
  have hmp : matchedPairs data ((_col_to_index "G").toNat) (st.samples.map pyStrip) = [] := by
    rw [matchedPairs, List.filter_eq_nil_iff]
    intro p hp
    have hsnd : p.2 ∈ data := by
      have h2 := List.enumFrom_map_snd 2 data
      exact h2 ▸ List.mem_map_of_mem Prod.snd hp
    simp only [decide_eq_true_eq]
    exact hdisj p.2 hsnd
  constructor
  · simp [matchRows, hmp]
  · unfold onExport
    rw [if_neg hne]
    dsimp only
    rw [if_pos (by simp [matchRows, hmp])]

/-- Witness for C3: scanned code "X" against a sheet whose only data row
does not carry it. -/
theorem no_match_short_circuit_witness :
    matchRows [["S1"]] ((_col_to_index "G").toNat)
        ((["X"] : List String).map pyStrip) = ([], []) ∧
    onExport { samples := ["X"], current_input := "" } [["ID"], ["S1"]] "01/01/2025" =
      some ({ samples := ["X"], current_input := "" },
            ExportOutcome.noMatchWarning, [RemoteCall.fetch]) :=
  no_match_short_circuit { samples := ["X"], current_input := "" } ["ID"] [["S1"]]
    "01/01/2025" (by decide) (by decide)

/-- C4: the matched rows preserve the source-table row order — they form
a sublist of the data rows — and the result does not depend on the scan
order: any two scanned lists with the same trimmed members produce the
same match result. -/
theorem match_preserves_table_order (data : List (List String)) (g_idx : Nat)
    (samples₁ samples₂ : List String)
    (h : ∀ x, x ∈ samples₁.map pyStrip ↔ x ∈ samples₂.map pyStrip) :
    matchRows data g_idx (samples₁.map pyStrip) =
      matchRows data g_idx (samples₂.map pyStrip) ∧
    (matchRows data g_idx (samples₁.map pyStrip)).1.Sublist data := by
  have hmp : matchedPairs data g_idx (samples₁.map pyStrip) =
      matchedPairs data g_idx (samples₂.map pyStrip) := by
    rw [matchedPairs, matchedPairs]
    exact List.filter_congr (fun q _ => decide_eq_decide.mpr (h _))
  constructor
  · rw [matchRows, matchRows, hmp]
  · rw [matchRows]
    have hsub := (List.filter_sublist (l := data.enumFrom 2)
      (p := fun q => decide (sampleText q.2 g_idx ∈ samples₁.map pyStrip))).map Prod.snd
    rw [List.enumFrom_map_snd] at hsub
    exact hsub

/-- Witness for C4: scanning ["C", "A"] against a table where A's row
precedes C's row gives the same result as scanning ["A", "C"], and the
matched rows come out in table order A, C. -/
theorem match_preserves_table_order_witness :
    matchRows [["A"], ["C"]] 0 ((["C", "A"] : List String).map pyStrip) =
      matchRows [["A"], ["C"]] 0 ((["A", "C"] : List String).map pyStrip) ∧
    (matchRows [["A"], ["C"]] 0 ((["C", "A"] : List String).map pyStrip)).1 =
      [["A"], ["C"]] := by
  refine ⟨(match_preserves_table_order [["A"], ["C"]] 0 ["C", "A"] ["A", "C"] ?_).1, by decide⟩
  intro x
  constructor <;> intro hx <;> simp only [List.map, List.mem_cons] at hx ⊢ <;> tauto

/-- C5: the data row at 1-based index i is reported with row position
i + 1 (the first data row gets position 2), regardless of which rows
match, and each matched pair carries the position of its own source
line. -/
theorem row_positions_track_source_lines (data : List (List String)) (g_idx : Nat)
    (samples_set : List String) :
    (∀ i row, 1 ≤ i → data[i - 1]? = some row →
      sampleText row g_idx ∈ samples_set →
      (i + 1, row) ∈ matchedPairs data g_idx samples_set) ∧
    (∀ p ∈ matchedPairs data g_idx samples_set,
      ∃ i row, 1 ≤ i ∧ data[i - 1]? = some row ∧ p = (i + 1, row) ∧
        sampleText row g_idx ∈ samples_set) := by
  constructor
  · intro i row h1 h2 h3
    rw [matchedPairs, List.mem_filter]
    refine ⟨?_, by simpa using h3⟩
    have hget : (data.enumFrom 2)[i - 1]? = some (2 + (i - 1), row) := by
      rw [List.getElem?_enumFrom, h2]
      rfl
    have hmem := List.getElem?_mem hget
    rwa [show 2 + (i - 1) = i + 1 by omega] at hmem
  · intro p hp
    rw [matchedPairs, List.mem_filter] at hp
    obtain ⟨hmem, hpred⟩ := hp
    obtain ⟨k, hk⟩ := List.mem_iff_getElem?.mp hmem
    rw [List.getElem?_enumFrom] at hk
    cases hrow : data[k]? with
    | none => rw [hrow] at hk; simp at hk
    | some row =>
      rw [hrow] at hk
      simp only [Option.map_some'] at hk
      have hpeq : p = (2 + k, row) := (Option.some_inj.mp hk).symm
      refine ⟨k + 1, row, by omega, ?_, ?_, ?_⟩
      · rw [show k + 1 - 1 = k by omega]
        exact hrow
      · rw [hpeq, show k + 1 + 1 = 2 + k by omega]
      · rw [hpeq] at hpred
        simpa using hpred

/-- Witness for C5: in a two-row table the second data row, when matched,
is paired with row position 3. -/
theorem row_positions_track_source_lines_witness :
    (3, [("S2" : String)]) ∈ matchedPairs [["S1"], ["S2"]] 0 ["S2"] :=
  (row_positions_track_source_lines [["S1"], ["S2"]] 0 ["S2"]).1 2 ["S2"]
    (by decide) (by decide) (by decide)

/-- C10: the scanned-sample list invariant — no empty string, no
duplicates, every element its own trimmed form — holds initially and is
preserved by scan, by clear and by any export attempt; an export attempt
never changes the session state, scan never empties a non-empty list, and
clear empties it. -/
theorem session_list_invariant (st : SessionState) (hinv : SampleInv st.samples) :
    SampleInv initialState.samples ∧
    (∀ input, SampleInv (scanEvent st input).samples) ∧
    SampleInv (clearEvent st).samples ∧ (clearEvent st).samples = [] ∧
    (∀ input, st.samples ≠ [] → (scanEvent st input).samples ≠ []) ∧
    (∀ sheet_rows today res, onExport st sheet_rows today = some res →
      res.1 = st ∧ SampleInv res.1.samples) := by
  obtain ⟨hnd, helem⟩ := hinv
  refine ⟨⟨List.nodup_nil, by intro s hs; simp [initialState] at hs⟩, ?_,
    ⟨List.nodup_nil, by intro s hs; simp [clearEvent] at hs⟩, rfl, ?_, ?_⟩
  · intro input
    simp only [scanEvent, _add_sample]
    split
    · rename_i hcond
      obtain ⟨hne, hnm⟩ := hcond
      constructor
      · simp [List.nodup_append, hnd, hnm]
      · intro s hs
        rcases List.mem_append.mp hs with hs' | hs'
        · exact helem s hs'
        · rw [List.mem_singleton.mp hs']
          exact ⟨hne, pyStrip_idem input⟩
    · exact ⟨hnd, helem⟩
  · intro input hne'
    simp only [scanEvent, _add_sample]
    split
    · simp
    · exact hne'
  · intro sheet_rows today res hres
    have hst := onExport_state_eq st sheet_rows today res hres
    exact ⟨hst, by rw [hst]; exact ⟨hnd, helem⟩⟩

/-- Witness for C10 at the initial state: one scan keeps the invariant,
clear empties the list. -/
theorem session_list_invariant_witness :
    SampleInv (scanEvent initialState " S1 ").samples ∧
    (clearEvent initialState).samples = [] := by
  have h := session_list_invariant initialState
    ⟨List.nodup_nil, by intro s hs; simp [initialState] at hs⟩
  exact ⟨h.2.1 " S1 ", h.2.2.2.1⟩

end Amostras
